import Mathlib

set_option autoImplicit false

namespace InspektorGadget

/-!
Shallow embedding of parts of the inspektor-gadget runtime:
the wasm operator's handle table, host-call surface, the OCI handler's
layer/lifecycle loops and the gadget-metadata validator.
Each definition is translated from the corresponding Go source;
definitions whose Go source is not part of this tree are marked
`Modelled from the spec:` in their doc comment.
-/

/-- Host objects stored in the wasm handle table (`handleMap : map[uint32]any`).
The variants mirror the concrete types the Go code stores and type-asserts:
`datasource.DataSource`, `datasource.Data`, `datasource.FieldAccessor`
(carrying its static `Size()`), and anything else. -/
inductive Obj where
  | dataSource (id : Nat)
  | dataRec (id : Nat)
  | fieldAccessor (id : Nat) (size : Nat)
  | other (id : Nat)
deriving DecidableEq, Repr

/-- The number of distinct `uint32` values, `2^32`. -/
def U32 : Nat := 2 ^ 32

/-- Association-list model of the Go map `map[uint32]any`. -/
abbrev HMap := List (Nat × Obj)

/-- Go map indexing `m[k]` (with `ok` encoded as `Option`). -/
def hmLookup : HMap → Nat → Option Obj
  | [], _ => none
  | (k, v) :: rest, key => if k = key then some v else hmLookup rest key

/-- Go `delete(m, k)`. -/
def hmErase (m : HMap) (key : Nat) : HMap :=
  m.filter (fun p => p.1 != key)

/-- The handle-table part of `wasmOperatorInstance`: `handleMap` and the
allocation counter `handleCtr` (a `uint32`, kept as a `Nat < 2^32`). -/
structure HandleState where
  handleMap : HMap
  handleCtr : Nat
deriving DecidableEq, Repr

/-- The `for` loop inside `wasmOperatorInstance.addHandle` (`part_001`,
lines 129-141).  `xctr` counts iterations; the loop exits with `0` once
`xctr > 1<<32`, otherwise it checks whether `handleCtr` (here `ctr`) is
free and registers the object there.  Note that the Go loop body never
changes `handleCtr`, so `ctr` is the same candidate on every iteration;
the model reproduces this faithfully. -/
def addHandleLoop (m : HMap) (ctr : Nat) (obj : Obj) (xctr : Nat) : HMap × Nat :=
  if h : xctr > U32 then
    (m, 0)
  else if (hmLookup m ctr).isSome then
    addHandleLoop m ctr obj (xctr + 1)
  else
    ((ctr, obj) :: m, ctr)
termination_by U32 + 1 - xctr
decreasing_by simp_wf; omega

/-- The candidate id `addHandle` settles on after its counter increments
(`part_001`, lines 125-128): `handleCtr + 1` as a `uint32`, incremented a
second time when it wraps to the reserved value `0`. -/
def addHandleCandidate (st : HandleState) : Nat :=
  let c1 := (st.handleCtr + 1) % U32
  if c1 = 0 then (c1 + 1) % U32 else c1

/-- `wasmOperatorInstance.addHandle` (`part_001`, lines 118-142).
A `nil` object yields `0` immediately.  Otherwise `handleCtr` is
incremented (as a `uint32`, re-incremented when it wraps to `0`) and the
allocation loop runs on the resulting candidate id. -/
def addHandle (st : HandleState) (obj : Option Obj) : HandleState × Nat :=
  match obj with
  | none => (st, 0)
  | some o =>
    let c2 := addHandleCandidate st
    let r := addHandleLoop st.handleMap c2 o 0
    ({ handleMap := r.1, handleCtr := c2 }, r.2)

/-- `wasmOperatorInstance.getHandle` (`part_001`, lines 144-148):
a plain map lookup (Go returns `nil` for absent keys). -/
def getHandle (st : HandleState) (handleID : Nat) : Option Obj :=
  hmLookup st.handleMap handleID

/-- `wasmOperatorInstance.delHandle` (`part_001`, lines 150-154). -/
def delHandle (st : HandleState) (handleID : Nat) : HandleState :=
  { st with handleMap := hmErase st.handleMap handleID }

/-! Unfolding lemmas for the allocation loop. -/

theorem addHandleLoop_stop (m : HMap) (ctr : Nat) (obj : Obj) (x : Nat)
    (hx : U32 < x) : addHandleLoop m ctr obj x = (m, 0) := by
  rw [addHandleLoop]
  simp [hx]

theorem addHandleLoop_free (m : HMap) (ctr : Nat) (obj : Obj) (x : Nat)
    (hx : x ≤ U32) (h : hmLookup m ctr = none) :
    addHandleLoop m ctr obj x = ((ctr, obj) :: m, ctr) := by
  rw [addHandleLoop]
  simp [Nat.not_lt.mpr hx, h]

theorem addHandleLoop_occupied (m : HMap) (ctr : Nat) (obj : Obj)
    (h : (hmLookup m ctr).isSome) :
    ∀ fuel x, U32 + 1 ≤ x + fuel → addHandleLoop m ctr obj x = (m, 0) := by
  intro fuel
  induction fuel with
  | zero =>
    intro x hx
    exact addHandleLoop_stop m ctr obj x (by omega)
  | succ n ih =>
    intro x hx
    by_cases hgt : U32 < x
    · exact addHandleLoop_stop m ctr obj x hgt
    · rw [addHandleLoop]
      simp only [gt_iff_lt, hgt, dite_false, h, if_true]
      exact ih (x + 1) (by omega)

theorem hmLookup_eq_none_of_no_key (m : HMap) (k : Nat)
    (h : ∀ p ∈ m, p.1 ≠ k) : hmLookup m k = none := by
  induction m with
  | nil => rfl
  | cons p rest ih =>
    have hp : p.1 ≠ k := h p (by simp)
    obtain ⟨k', v'⟩ := p
    simp only [hmLookup]
    rw [if_neg hp]
    exact ih fun q hq => h q (by simp [hq])

/-- Characterization of `addHandle` on a non-nil object: the candidate id
`c2` the counter settles on is never `0`, and the call either finds `c2`
occupied (returning `0` with the map unchanged) or registers the object
at `c2`. -/
theorem addHandle_some_cases (st : HandleState) (o : Obj) :
    (addHandleCandidate st ≠ 0) ∧
    ((hmLookup st.handleMap (addHandleCandidate st)).isSome →
      addHandle st (some o) =
        ({ handleMap := st.handleMap, handleCtr := addHandleCandidate st }, 0)) ∧
    (hmLookup st.handleMap (addHandleCandidate st) = none →
      addHandle st (some o) =
        ({ handleMap := (addHandleCandidate st, o) :: st.handleMap,
           handleCtr := addHandleCandidate st }, addHandleCandidate st)) := by
  refine ⟨?_, ?_, ?_⟩
  · unfold addHandleCandidate
    by_cases h0 : (st.handleCtr + 1) % U32 = 0
    · rw [if_pos h0, h0]
      have : (0 + 1) % U32 = 1 := Nat.mod_eq_of_lt (by norm_num [U32])
      omega
    · rw [if_neg h0]
      exact h0
  · intro hocc
    have hloop := addHandleLoop_occupied st.handleMap (addHandleCandidate st) o hocc
      (U32 + 1) 0 (by omega)
    simp only [addHandle, addHandleCandidate] at hloop ⊢
    rw [hloop]
  · intro hfree
    have hloop := addHandleLoop_free st.handleMap (addHandleCandidate st) o 0
      (by omega) hfree
    simp only [addHandle, addHandleCandidate] at hloop ⊢
    rw [hloop]

/-- The conclusions of claim C10, as a predicate on the handle state:
`addHandle nil` returns `0` without touching the table, `getHandle 0`
yields `nil`, the no-zero-key invariant is preserved by any `addHandle`,
and whenever `addHandle` registers a real object it returns a non-zero
id under which the object is live (a `0` return leaves the table
unchanged, so `0` is never a live handle). -/
def zeroHandleProp (st : HandleState) : Prop :=
  addHandle st none = (st, 0) ∧
  getHandle st 0 = none ∧
  (∀ o : Obj, ∀ p ∈ (addHandle st (some o)).1.handleMap, p.1 ≠ 0) ∧
  (∀ o : Obj, (addHandle st (some o)).2 = 0 →
    (addHandle st (some o)).1.handleMap = st.handleMap) ∧
  (∀ o : Obj, (addHandle st (some o)).2 ≠ 0 →
    hmLookup (addHandle st (some o)).1.handleMap (addHandle st (some o)).2 = some o)

/-- C10: calling `addHandle` with a nil object returns `0` and leaves the
handle table unchanged; handle id `0` is never a live table entry (the
no-zero-key invariant is preserved), `getHandle 0` always yields nil, and
every handle under which a real object gets registered is non-zero. -/
theorem addHandle_zero_reserved (st : HandleState)
    (hz : ∀ p ∈ st.handleMap, p.1 ≠ 0) : zeroHandleProp st := by
  have hcand : addHandleCandidate st ≠ 0 := (addHandle_some_cases st (Obj.other 0)).1
  refine ⟨rfl, hmLookup_eq_none_of_no_key _ _ hz, ?_, ?_, ?_⟩
  · intro o p hp
    rcases hcase : hmLookup st.handleMap (addHandleCandidate st) with _ | v
    · rw [(addHandle_some_cases st o).2.2 hcase] at hp
      rcases List.mem_cons.1 hp with hp | hp
      · rw [hp]; exact hcand
      · exact hz p hp
    · have : (hmLookup st.handleMap (addHandleCandidate st)).isSome := by
        rw [hcase]; rfl
      rw [(addHandle_some_cases st o).2.1 this] at hp
      exact hz p hp
  · intro o hret
    rcases hcase : hmLookup st.handleMap (addHandleCandidate st) with _ | v
    · rw [(addHandle_some_cases st o).2.2 hcase] at hret
      exact absurd hret hcand
    · have : (hmLookup st.handleMap (addHandleCandidate st)).isSome := by
        rw [hcase]; rfl
      rw [(addHandle_some_cases st o).2.1 this]
  · intro o hret
    rcases hcase : hmLookup st.handleMap (addHandleCandidate st) with _ | v
    · rw [(addHandle_some_cases st o).2.2 hcase]
      simp [hmLookup]
    · have hs : (hmLookup st.handleMap (addHandleCandidate st)).isSome := by
        rw [hcase]; rfl
      rw [(addHandle_some_cases st o).2.1 hs] at hret
      exact absurd rfl hret

/-- Witness for C10 at a concrete one-entry table. -/
theorem addHandle_zero_reserved_witness :
    (∀ p ∈ ([(5, Obj.other 0)] : HMap), p.1 ≠ 0) ∧
    zeroHandleProp ⟨[(5, Obj.other 0)], 5⟩ :=
  ⟨by decide, addHandle_zero_reserved ⟨[(5, Obj.other 0)], 5⟩ (by decide)⟩

/-- C1, evaluated at the failing input: with `handleCtr = 1` and only the
single id `2` live in the table, `addHandle` on a fresh object returns
`0` (the "exhausted" result) even though id `3` — and billions of others
— are free: the loop in `addHandle` never advances `handleCtr`, so it
retests the same live id until the `xctr` bound trips. -/
theorem addHandle_spurious_exhaustion :
    (addHandle ⟨[(2, Obj.other 0)], 1⟩ (some (Obj.other 1))).2 = 0 ∧
    (addHandle ⟨[(2, Obj.other 0)], 1⟩ (some (Obj.other 1))).1.handleMap
      = [(2, Obj.other 0)] ∧
    hmLookup [(2, Obj.other 0)] 3 = none := by
  have hcand : addHandleCandidate ⟨[(2, Obj.other 0)], 1⟩ = 2 := by
    unfold addHandleCandidate
    norm_num [U32]
  have hocc : (hmLookup [(2, Obj.other 0)] 2).isSome := by decide
  have h := (addHandle_some_cases ⟨[(2, Obj.other 0)], 1⟩ (Obj.other 1)).2.1
  rw [hcand] at h
  rw [h hocc]
  refine ⟨rfl, rfl, by decide⟩

theorem hmErase_cons (k' : Nat) (v : Obj) (rest : HMap) (k : Nat) :
    hmErase ((k', v) :: rest) k =
      if k' = k then hmErase rest k else (k', v) :: hmErase rest k := by
  simp only [hmErase, List.filter_cons]
  by_cases h : k' = k <;> simp [h]

theorem hmLookup_hmErase_self (m : HMap) (k : Nat) :
    hmLookup (hmErase m k) k = none := by
  induction m with
  | nil => rfl
  | cons p rest ih =>
    obtain ⟨k', v⟩ := p
    rw [hmErase_cons]
    by_cases h : k' = k
    · rw [if_pos h]; exact ih
    · rw [if_neg h]
      simp only [hmLookup]
      rw [if_neg h]
      exact ih

theorem hmLookup_hmErase_of_none (m : HMap) (k k' : Nat)
    (h : hmLookup m k = none) : hmLookup (hmErase m k') k = none := by
  induction m with
  | nil => rfl
  | cons p rest ih =>
    obtain ⟨a, v⟩ := p
    rw [hmErase_cons]
    simp only [hmLookup] at h
    by_cases hak : a = k
    · rw [if_pos hak] at h
      exact absurd h (by simp)
    · rw [if_neg hak] at h
      by_cases hak' : a = k'
      · rw [if_pos hak']
        exact ih h
      · rw [if_neg hak']
        simp only [hmLookup]
        rw [if_neg hak]
        exact ih h

/-- `wasmOperatorInstance.Stop` (`part_001`, lines 267-285), restricted to
its effect on the handle table and the error it returns.  The deferred
cleanup sets `handleMap = nil` on every path: when the guest exports no
`stop` function, and regardless of whether the `stop` call errors. -/
def wasmStop (st : HandleState) (hasStopExport stopCallErr : Bool) :
    HandleState × Bool :=
  if hasStopExport then
    ({ handleMap := [], handleCtr := st.handleCtr }, stopCallErr)
  else
    ({ handleMap := [], handleCtr := st.handleCtr }, false)

/-- The subscription callback wrapper that `dataSourceSubscribe` registers
(`api/api.go`, lines 846-854): it adds short-lived handles for the data
source and the data record, invokes the guest's `dsCallback` (modelled as
an arbitrary state transformer returning an error flag, since the guest
callback may itself re-enter the host and mutate the table), and deletes
both short-lived handles before returning the callback's error. -/
def subscribeCallbackRun (st : HandleState) (source dataRec : Obj)
    (cbCall : HandleState → HandleState × Bool) : HandleState × Bool :=
  let r1 := addHandle st (some source)
  let r2 := addHandle r1.1 (some dataRec)
  let r3 := cbCall r2.1
  let st4 := delHandle r3.1 r1.2
  let st5 := delHandle st4 r2.2
  (st5, r3.2)

/-- C7: after `Stop` completes the instance holds no live handles — the
table is cleared for every combination of "guest exports stop" and "stop
call errors" — and the short-lived dsHandle and dataHandle created for a
subscription callback are no longer in the handle table when the callback
wrapper returns, whatever the guest callback did to the table. -/
theorem stop_clears_handles_and_callback_frees (st st' : HandleState)
    (hasStopExport stopCallErr : Bool) (source dataRec : Obj)
    (cbCall : HandleState → HandleState × Bool) :
    (wasmStop st hasStopExport stopCallErr).1.handleMap = [] ∧
    (∀ h : Nat, getHandle (wasmStop st hasStopExport stopCallErr).1 h = none) ∧
    getHandle (subscribeCallbackRun st' source dataRec cbCall).1
      (addHandle st' (some source)).2 = none ∧
    getHandle (subscribeCallbackRun st' source dataRec cbCall).1
      (addHandle (addHandle st' (some source)).1 (some dataRec)).2 = none := by
  refine ⟨?_, ?_, ?_, ?_⟩
  · unfold wasmStop
    by_cases h : hasStopExport <;> simp [h]
  · intro h
    unfold wasmStop getHandle
    by_cases hh : hasStopExport <;> simp [hh, hmLookup]
  · simp only [subscribeCallbackRun, delHandle, getHandle]
    exact hmLookup_hmErase_of_none _ _ _ (hmLookup_hmErase_self _ _)
  · simp only [subscribeCallbackRun, delHandle, getHandle]
    exact hmLookup_hmErase_self _ _

/-- Guest linear memory: a byte store of `size` addressable bytes. -/
structure GuestMem where
  size : Nat
  data : Nat → Nat

/-- Modelled from the spec: the host-side helper `stringFromStack`
(defined in `pkg/operators/wasm/wasm.go`, which is not part of this
tree).  Per the spec, a string reference is a 64-bit value encoding
`(length << 32) | pointer` into the guest's linear memory; the host reads
`length` bytes at `pointer`, copying them out before returning, and a
pointer/length pair that does not lie in guest memory is an error. -/
def stringFromStack (mem : GuestMem) (ref : Nat) : Option (List Nat) :=
  let ptr := ref % U32
  let len := (ref / U32) % U32
  if ptr + len ≤ mem.size then
    some ((List.range len).map fun j => mem.data (ptr + j))
  else
    none

/-- Go type assertion `.(datasource.DataSource)` on a handle-table entry
(`nil` or a value of another type fails the assertion). -/
def asDataSource : Option Obj → Option Nat
  | some (Obj.dataSource id) => some id
  | _ => none

/-- Go type assertion `.(datasource.Data)` on a handle-table entry. -/
def asData : Option Obj → Option Nat
  | some (Obj.dataRec id) => some id
  | _ => none

/-- Go type assertion `.(datasource.FieldAccessor)` on a handle-table
entry; yields the accessor id together with its static `Size()`. -/
def asFieldAccessor : Option Obj → Option (Nat × Nat)
  | some (Obj.fieldAccessor id size) => some (id, size)
  | _ => none

/-- Observable outcome of one host call: the updated handle table, the
value left in `stack[0]` (the call's result slot), whether a warning was
logged, whether the underlying host-side operation was performed, and
whether the guest was trapped.  The Go host functions return normally on
every path, so `trapped` is `false` throughout. -/
structure CallOut where
  st : HandleState
  ret : Nat
  warned : Bool
  performedOp : Bool
  trapped : Bool
deriving DecidableEq, Repr

/-- `wasmOperatorInstance.dataSourceGetField` (`api/api.go`, lines
778-793).  `ds.GetField` lives in the datasource package (not part of
this tree) and is abstracted as `getFieldFn`, which may return `none`
(Go `nil`). -/
def dataSourceGetField (getFieldFn : Nat → List Nat → Option Obj)
    (st : HandleState) (mem : GuestMem) (dsH nameRef : Nat) : CallOut :=
  match asDataSource (getHandle st dsH) with
  | none => ⟨st, 0, true, false, false⟩
  | some dsId =>
    match stringFromStack mem nameRef with
    | none => ⟨st, 0, true, false, false⟩
    | some fieldName =>
      let r := addHandle st (getFieldFn dsId fieldName)
      ⟨r.1, r.2, false, true, false⟩

/-- The kinds handled by the `switch` in `fieldAccessorGet`
(`api.Kind` values `Kind_Int8 = 2` through `Kind_Float64 = 11`; `Bool` is
commented out in the source and every other value hits the warning
`default` branch). -/
def kindHandled (kind : Nat) : Bool :=
  2 ≤ kind && kind ≤ 11

/-- `wasmOperatorInstance.fieldAccessorGet` (`fields.go`, lines 354-395).
The typed reads `acc.Int8(data)`, ..., `acc.Float64(data)` live in the
datasource package (not part of this tree) and are abstracted as
`readFn accessorId dataId kind`. -/
def fieldAccessorGet (readFn : Nat → Nat → Nat → Nat)
    (st : HandleState) (accH dataH kind : Nat) : CallOut :=
  match asFieldAccessor (getHandle st accH) with
  | none => ⟨st, 0, true, false, false⟩
  | some acc =>
    match asData (getHandle st dataH) with
    | none => ⟨st, 0, true, false, false⟩
    | some dataId =>
      if kindHandled kind then
        ⟨st, readFn acc.1 dataId kind, false, true, false⟩
      else
        ⟨st, 0, true, false, false⟩

/-- C3: for the embedded host calls (`dataSourceGetField` and
`fieldAccessorGet`): a handle argument that is not a live table entry of
the expected type — including handle `0` under the zero-reserved-key
invariant — or a string reference that does not lie in guest memory makes
the host log a warning and return `0`, without performing the underlying
operation, without changing the handle table, and without trapping the
guest. -/
theorem host_call_rejects_bad_args
    (getFieldFn : Nat → List Nat → Option Obj) (readFn : Nat → Nat → Nat → Nat)
    (st : HandleState) (mem : GuestMem) (dsH nameRef accH dataH kind : Nat) :
    (asDataSource (getHandle st dsH) = none →
      dataSourceGetField getFieldFn st mem dsH nameRef = ⟨st, 0, true, false, false⟩) ∧
    (∀ dsId, asDataSource (getHandle st dsH) = some dsId →
      stringFromStack mem nameRef = none →
      dataSourceGetField getFieldFn st mem dsH nameRef = ⟨st, 0, true, false, false⟩) ∧
    (asFieldAccessor (getHandle st accH) = none →
      fieldAccessorGet readFn st accH dataH kind = ⟨st, 0, true, false, false⟩) ∧
    (∀ acc, asFieldAccessor (getHandle st accH) = some acc →
      asData (getHandle st dataH) = none →
      fieldAccessorGet readFn st accH dataH kind = ⟨st, 0, true, false, false⟩) ∧
    ((∀ p ∈ st.handleMap, p.1 ≠ 0) →
      dataSourceGetField getFieldFn st mem 0 nameRef = ⟨st, 0, true, false, false⟩ ∧
      fieldAccessorGet readFn st 0 dataH kind = ⟨st, 0, true, false, false⟩) := by
  refine ⟨?_, ?_, ?_, ?_, ?_⟩
  · intro h
    simp [dataSourceGetField, h]
  · intro dsId h hstr
    simp [dataSourceGetField, h, hstr]
  · intro h
    simp [fieldAccessorGet, h]
  · intro acc h hdata
    simp [fieldAccessorGet, h, hdata]
  · intro hz
    have h0 : getHandle st 0 = none := hmLookup_eq_none_of_no_key _ _ hz
    constructor
    · simp [dataSourceGetField, h0, asDataSource]
    · simp [fieldAccessorGet, h0, asFieldAccessor]

/-- Witness for C3: the conjuncts applied at a concrete empty table,
a one-byte memory and an out-of-range string reference. -/
theorem host_call_rejects_bad_args_witness :
    (asDataSource (getHandle ⟨[(3, Obj.dataSource 1)], 3⟩ 7) = none ∧
      dataSourceGetField (fun _ _ => none) ⟨[(3, Obj.dataSource 1)], 3⟩
        ⟨1, fun _ => 0⟩ 7 0 = ⟨⟨[(3, Obj.dataSource 1)], 3⟩, 0, true, false, false⟩) ∧
    (asDataSource (getHandle ⟨[(3, Obj.dataSource 1)], 3⟩ 3) = some 1 ∧
      stringFromStack ⟨1, fun _ => 0⟩ (2 * U32) = none ∧
      dataSourceGetField (fun _ _ => none) ⟨[(3, Obj.dataSource 1)], 3⟩
        ⟨1, fun _ => 0⟩ 3 (2 * U32) = ⟨⟨[(3, Obj.dataSource 1)], 3⟩, 0, true, false, false⟩) ∧
    ((∀ p ∈ ([(3, Obj.dataSource 1)] : HMap), p.1 ≠ 0) ∧
      fieldAccessorGet (fun _ _ _ => 0) ⟨[(3, Obj.dataSource 1)], 3⟩ 0 3 6 =
        ⟨⟨[(3, Obj.dataSource 1)], 3⟩, 0, true, false, false⟩) := by
  have h := host_call_rejects_bad_args (fun _ _ => none) (fun _ _ _ => 0)
    ⟨[(3, Obj.dataSource 1)], 3⟩ ⟨1, fun _ => 0⟩ 7 0 0 3 6
  have h' := host_call_rejects_bad_args (fun _ _ => none) (fun _ _ _ => 0)
    ⟨[(3, Obj.dataSource 1)], 3⟩ ⟨1, fun _ => 0⟩ 3 (2 * U32) 0 3 6
  refine ⟨⟨by decide, h.1 (by decide)⟩, ⟨by decide, ?_, ?_⟩, ⟨by decide, ?_⟩⟩
  · decide
  · exact h'.2.1 1 (by decide) (by decide)
  · exact (h.2.2.2.2 (by decide)).2

/-- State observed by the emit host calls: the handle table plus the
record ids that have been delivered to subscribers and those that have
been released. -/
structure EmitState where
  hs : HandleState
  emitted : List Nat
  released : List Nat
deriving DecidableEq, Repr

/-- `wasmOperatorInstance.dataSourceEmitAndRelease` (`api/api.go`, lines
880-895).  A data-source or data handle that fails to resolve logs a
warning and returns `1`, touching nothing.  On success the call runs
`ds.EmitAndRelease(data)` — modelled from the spec: the record is
delivered to the subscribers and then released — and returns `0`. -/
def dataSourceEmitAndRelease (st : EmitState) (dsH dataH : Nat) : EmitState × Nat :=
  match asDataSource (getHandle st.hs dsH) with
  | none => (st, 1)
  | some _ =>
    match asData (getHandle st.hs dataH) with
    | none => (st, 1)
    | some recId =>
      ({ st with emitted := recId :: st.emitted,
                 released := recId :: st.released }, 0)

/-- C2 counterexample: with record `9` live under data handle `2` but a
dead data-source handle `5`, `dataSourceEmitAndRelease` returns `1` and
releases nothing — the record referred to by the data handle is *not*
released on this error path, refuting the unconditional-release claim. -/
theorem emitAndRelease_error_path_does_not_release :
    (dataSourceEmitAndRelease ⟨⟨[(2, Obj.dataRec 9)], 2⟩, [], []⟩ 5 2).2 = 1 ∧
    asData (getHandle (⟨[(2, Obj.dataRec 9)], 2⟩ : HandleState) 2) = some 9 ∧
    (dataSourceEmitAndRelease ⟨⟨[(2, Obj.dataRec 9)], 2⟩, [], []⟩ 5 2).1.released = [] := by
  refine ⟨rfl, rfl, rfl⟩

/-- C2 (amended): `dataSourceEmitAndRelease` returns `0` on success and
`1` on error; it succeeds exactly when both handles resolve, in which
case the record is emitted and released; on the error paths the state is
returned unchanged — in particular the record is not released there. -/
theorem emitAndRelease_releases_only_on_success (st : EmitState) (dsH dataH : Nat) :
    ((dataSourceEmitAndRelease st dsH dataH).2 = 0 ∨
      (dataSourceEmitAndRelease st dsH dataH).2 = 1) ∧
    ((dataSourceEmitAndRelease st dsH dataH).2 = 1 →
      dataSourceEmitAndRelease st dsH dataH = (st, 1)) ∧
    ((dataSourceEmitAndRelease st dsH dataH).2 = 0 ↔
      (asDataSource (getHandle st.hs dsH)).isSome ∧
      (asData (getHandle st.hs dataH)).isSome) ∧
    (∀ recId, (asDataSource (getHandle st.hs dsH)).isSome →
      asData (getHandle st.hs dataH) = some recId →
      (dataSourceEmitAndRelease st dsH dataH).1.emitted = recId :: st.emitted ∧
      (dataSourceEmitAndRelease st dsH dataH).1.released = recId :: st.released) := by
  rcases h1 : asDataSource (getHandle st.hs dsH) with _ | dsId
  · refine ⟨Or.inr ?_, ?_, ?_, ?_⟩ <;>
      simp [dataSourceEmitAndRelease, h1]
  · rcases h2 : asData (getHandle st.hs dataH) with _ | recId
    · refine ⟨Or.inr ?_, ?_, ?_, ?_⟩ <;>
        simp [dataSourceEmitAndRelease, h1, h2]
    · refine ⟨Or.inl ?_, ?_, ?_, ?_⟩ <;>
        simp [dataSourceEmitAndRelease, h1, h2]

/-- Witness for the amended C2 on a concrete success state. -/
theorem emitAndRelease_releases_only_on_success_witness :
    ((asDataSource (getHandle (⟨[(1, Obj.dataSource 4), (2, Obj.dataRec 9)], 2⟩ :
        HandleState) 1)).isSome ∧
      asData (getHandle (⟨[(1, Obj.dataSource 4), (2, Obj.dataRec 9)], 2⟩ :
        HandleState) 2) = some 9) ∧
    (dataSourceEmitAndRelease ⟨⟨[(1, Obj.dataSource 4), (2, Obj.dataRec 9)], 2⟩, [], []⟩
        1 2).1.emitted = [9] ∧
    (dataSourceEmitAndRelease ⟨⟨[(1, Obj.dataSource 4), (2, Obj.dataRec 9)], 2⟩, [], []⟩
        1 2).1.released = [9] :=
  ⟨⟨by decide, by decide⟩,
    (emitAndRelease_releases_only_on_success
      ⟨⟨[(1, Obj.dataSource 4), (2, Obj.dataRec 9)], 2⟩, [], []⟩ 1 2).2.2.2 9
      (by decide) (by decide)⟩

/-- Per-(accessor, record) field storage, an association list keyed by
`(accessorId, dataId)` holding the stored byte string. -/
abbrev FieldStore := List ((Nat × Nat) × List Nat)

/-- Lookup in the field storage. -/
def fsLookup : FieldStore → (Nat × Nat) → Option (List Nat)
  | [], _ => none
  | (k, v) :: rest, key => if k = key then some v else fsLookup rest key

/-- Store a byte string for `(accessorId, dataId)`. -/
def fsInsert (s : FieldStore) (key : Nat × Nat) (v : List Nat) : FieldStore :=
  (key, v) :: s

/-- State observed by the field host calls: the handle table plus the
field storage. -/
structure FieldsState where
  hs : HandleState
  fieldVals : FieldStore
deriving DecidableEq, Repr

/-- The padding from `fieldAccessorSetString` (`fields.go`, line 138):
`append(buf, make([]byte, int(s)-len(buf))...)` fills the string with
zero bytes up to the static size `s`. -/
def padTo (s : Nat) (buf : List Nat) : List Nat :=
  buf ++ List.replicate (s - buf.length) 0

/-- `wasmOperatorInstance.fieldAccessorSetString` (`fields.go`, lines
304-345).  Output: the new state, the final `stack[0]` slot (the Go code
writes `0` into it on every error path and leaves the accessor handle in
place on success; the export declares no results), and whether a warning
was logged.  `acc.Set` lives in the datasource package (not part of this
tree) and is modelled from the spec — "Put writes the value" — as a total
store into the field storage. -/
def fieldAccessorSetString (st : FieldsState) (mem : GuestMem)
    (accH dataH strRef : Nat) : FieldsState × Nat × Bool :=
  match asFieldAccessor (getHandle st.hs accH) with
  | none => (st, 0, true)
  | some acc =>
    match asData (getHandle st.hs dataH) with
    | none => (st, 0, true)
    | some dataId =>
      match stringFromStack mem strRef with
      | none => (st, 0, true)
      | some buf =>
        if acc.2 ≠ 0 then
          if buf.length > acc.2 then
            (st, 0, true)
          else
            ({ st with fieldVals := fsInsert st.fieldVals (acc.1, dataId) (padTo acc.2 buf) }, accH, false)
        else
          ({ st with fieldVals := fsInsert st.fieldVals (acc.1, dataId) buf }, accH, false)

/-- C4: `fieldAccessorSetString` on an accessor of non-zero static size
`s`: a string of length ≤ s is stored padded with zero bytes up to
exactly length `s` without any warning; a longer string logs a warning,
writes the error value `0` into the result slot and leaves the state —
in particular the field storage — unchanged, so truncation never
occurs. -/
theorem setString_pads_never_truncates (st : FieldsState) (mem : GuestMem)
    (accH dataH strRef accId s dataId : Nat) (str : List Nat)
    (hacc : asFieldAccessor (getHandle st.hs accH) = some (accId, s))
    (hs : s ≠ 0)
    (hdata : asData (getHandle st.hs dataH) = some dataId)
    (hstr : stringFromStack mem strRef = some str) :
    (str.length ≤ s →
      fieldAccessorSetString st mem accH dataH strRef =
        ({ st with fieldVals := fsInsert st.fieldVals (accId, dataId) (padTo s str) }, accH, false) ∧
      padTo s str = str ++ List.replicate (s - str.length) 0 ∧
      (padTo s str).length = s) ∧
    (str.length > s →
      fieldAccessorSetString st mem accH dataH strRef = (st, 0, true)) := by
  constructor
  · intro hle
    refine ⟨?_, rfl, ?_⟩
    · simp [fieldAccessorSetString, hacc, hdata, hstr, hs, Nat.not_lt.mpr hle]
    · simp only [padTo, List.length_append, List.length_replicate]
      omega
  · intro hgt
    simp [fieldAccessorSetString, hacc, hdata, hstr, hs, hgt]

/-- Witness for C4 at a concrete state: accessor `1` has static size 4,
record handle `2` is live, the memory holds bytes `65, 66, 67` and the
string reference selects the first two. -/
theorem setString_pads_never_truncates_witness :
    (asFieldAccessor (getHandle (⟨[(1, Obj.fieldAccessor 4 4), (2, Obj.dataRec 9)], 2⟩ :
        HandleState) 1) = some (4, 4) ∧
      (4 : Nat) ≠ 0 ∧
      asData (getHandle (⟨[(1, Obj.fieldAccessor 4 4), (2, Obj.dataRec 9)], 2⟩ :
        HandleState) 2) = some 9 ∧
      stringFromStack ⟨3, fun j => 65 + j⟩ (2 * U32) = some [65, 66]) ∧
    (fieldAccessorSetString ⟨⟨[(1, Obj.fieldAccessor 4 4), (2, Obj.dataRec 9)], 2⟩, []⟩
        ⟨3, fun j => 65 + j⟩ 1 2 (2 * U32) =
      (⟨⟨[(1, Obj.fieldAccessor 4 4), (2, Obj.dataRec 9)], 2⟩,
        [((4, 9), padTo 4 [65, 66])]⟩, 1, false) ∧
      (padTo 4 [65, 66]).length = 4) := by
  have h := setString_pads_never_truncates
    ⟨⟨[(1, Obj.fieldAccessor 4 4), (2, Obj.dataRec 9)], 2⟩, []⟩
    ⟨3, fun j => 65 + j⟩ 1 2 (2 * U32) 4 4 9 [65, 66]
    (by decide) (by decide) (by decide) (by decide)
  have h2 := h.1 (by decide)
  exact ⟨⟨by decide, by decide, by decide, by decide⟩, h2.1, h2.2.2⟩

/-- An OCI manifest layer, reduced to what the handler's loop inspects:
its media type and an identifying payload. -/
structure Layer where
  mediaType : Nat
  payload : Nat
deriving DecidableEq, Repr

/-- An image operator instance as the OCI handler drives it: an id, the
outcomes of its `Prepare` and `Start` calls, and the extra params it
contributes when `Prepare` succeeds. -/
structure ImgInst where
  id : Nat
  prepareOK : Bool
  startOK : Bool
  extraParams : List Nat
deriving DecidableEq, Repr

/-- The layer loop of `OciHandlerInstance.init` (`part_000`, lines
229-246).  For each manifest layer in order the operator registered for
its media type is looked up (`operators.GetImageOperatorForMediaType`,
abstracted as `registry`); a layer with no registered operator is skipped
(`continue`) with no error.  Otherwise `InstantiateImageOperator` runs
(abstracted as a function from the layer to an optional instance plus an
error flag): an error is logged, a `nil` instance is skipped, a non-nil
instance is appended.  Returns the collected instances and the layers
whose instantiation error was logged. -/
def ociCollectLayers (registry : Nat → Option (Layer → Option ImgInst × Bool)) :
    List Layer → List ImgInst × List Layer
  | [] => ([], [])
  | l :: ls =>
    let rest := ociCollectLayers registry ls
    match registry l.mediaType with
    | none => rest
    | some instantiate =>
      let r := instantiate l
      let errs := if r.2 then l :: rest.2 else rest.2
      match r.1 with
      | none => (rest.1, errs)
      | some inst => (inst :: rest.1, errs)

/-- The validity check after the layer loop (`part_000`, lines 248-250):
`init` fails with "image doesn't contain valid gadget layers" exactly
when no instance was collected.  `true` means this step succeeded. -/
def ociLayersStepOk (registry : Nat → Option (Layer → Option ImgInst × Bool))
    (layers : List Layer) : Bool :=
  !(ociCollectLayers registry layers).1.isEmpty

/-- The prepare loop of `OciHandlerInstance.init` (`part_000`, lines
252-262): `Prepare` is called on every collected instance; an error only
logs and skips the extra-params collection (`continue`) — the instance is
not removed from `imageOperatorInstances`, and the loop cannot fail
`init`.  Returns the collected extra params and the instances whose
`Prepare` error was logged. -/
def ociPrepareStep : List ImgInst → List Nat × List ImgInst
  | [] => ([], [])
  | i :: is =>
    let rest := ociPrepareStep is
    if i.prepareOK then (i.extraParams ++ rest.1, rest.2)
    else (rest.1, i :: rest.2)

/-- Outcome of `OciHandlerInstance.init` past the metadata steps: the
instance list kept for the rest of the lifecycle (the prepare loop leaves
it untouched), the published extra params, the instances whose `Prepare`
error was logged, and whether `init` succeeded. -/
structure OciInitOut where
  instances : List ImgInst
  extraParams : List Nat
  prepareLogged : List ImgInst
  initOk : Bool
deriving DecidableEq, Repr

/-- `OciHandlerInstance.init` (`part_000`, lines 229-266), from the layer
loop on: collect instances per layer, fail when none was produced, else
run the prepare loop and return nil. -/
def ociInit (registry : Nat → Option (Layer → Option ImgInst × Bool))
    (layers : List Layer) : OciInitOut :=
  let c := ociCollectLayers registry layers
  if c.1.isEmpty then ⟨c.1, [], [], false⟩
  else
    let p := ociPrepareStep c.1
    ⟨c.1, p.1, p.2, true⟩

/-- `OciHandlerInstance.Start` (`part_000`, lines 268-276): `Start` is
invoked on every element of `imageOperatorInstances`, errors are logged,
and the function returns `nil` unconditionally.  Returns the instances on
which `Start` was invoked, the instances whose `Start` error was logged,
and the result (`true` = nil error). -/
def ociStartStep (insts : List ImgInst) : List ImgInst × List ImgInst × Bool :=
  (insts, insts.filter (fun i => !i.startOK), true)

/-- C5: during OCI init, a layer whose media type has no registered image
operator is skipped without error and without effect; and after all
layers are processed, the step fails exactly when zero image operator
instances were produced, succeeding otherwise. -/
theorem oci_init_skips_and_validates
    (registry : Nat → Option (Layer → Option ImgInst × Bool))
    (l : Layer) (ls layers : List Layer)
    (hnone : registry l.mediaType = none) :
    ociCollectLayers registry (l :: ls) = ociCollectLayers registry ls ∧
    (ociLayersStepOk registry layers = false ↔
      (ociCollectLayers registry layers).1 = []) ∧
    (ociLayersStepOk registry layers = false ↔
      (ociInit registry layers).initOk = false) := by
  refine ⟨?_, ?_, ?_⟩
  · simp [ociCollectLayers, hnone]
  · simp [ociLayersStepOk, List.isEmpty_iff]
  · unfold ociLayersStepOk ociInit
    rcases h : (ociCollectLayers registry layers).1 with _ | ⟨i, is⟩ <;> simp [h]

/-- Witness for C5 with an empty registry and one unknown layer. -/
theorem oci_init_skips_and_validates_witness :
    ((fun _ : Nat => (none : Option (Layer → Option ImgInst × Bool))) (Layer.mk 7 0).mediaType
        = none) ∧
    (ociCollectLayers (fun _ => none) [Layer.mk 7 0]
        = ociCollectLayers (fun _ => none) [] ∧
      (ociLayersStepOk (fun _ => none) [Layer.mk 7 0] = false ↔
        (ociCollectLayers (fun _ => none) [Layer.mk 7 0]).1 = []) ∧
      (ociLayersStepOk (fun _ => none) [Layer.mk 7 0] = false ↔
        (ociInit (fun _ => none) [Layer.mk 7 0]).initOk = false)) :=
  ⟨rfl, oci_init_skips_and_validates (fun _ => none) (Layer.mk 7 0) [] [Layer.mk 7 0] rfl⟩

/-- C6 counterexample: one layer instantiating the instance `⟨1, false,
true, []⟩` whose `Prepare` fails.  `init` keeps it in the lifecycle list
and succeeds, and the `Start` phase still invokes `Start` on it — so an
instance whose `Prepare` failed is neither omitted from the rest of the
lifecycle nor does the context fail although no instance survived
`Prepare`. -/
theorem oci_start_runs_on_prepare_failed_instance :
    (ociInit (fun mt => if mt = 0 then some (fun _ => (some ⟨1, false, true, []⟩, false)) else none)
        [Layer.mk 0 0]).instances = [⟨1, false, true, []⟩] ∧
    (ImgInst.mk 1 false true []).prepareOK = false ∧
    (ociStartStep [⟨1, false, true, []⟩]).1 = [⟨1, false, true, []⟩] ∧
    (ociInit (fun mt => if mt = 0 then some (fun _ => (some ⟨1, false, true, []⟩, false)) else none)
        [Layer.mk 0 0]).initOk = true ∧
    (ociStartStep [⟨1, false, true, []⟩]).2.2 = true := by
  refine ⟨rfl, rfl, rfl, rfl, rfl⟩

/-- C6 (amended): a `Prepare` error is logged and the failing instance is
omitted only from the extra-parameter collection; the instance list kept
for the rest of the lifecycle is the full collected list, so `Start` is
invoked on every instance — including those whose `Prepare` failed —
`Start` errors are in turn logged, and neither the prepare loop nor
`Start` ever fails the gadget context. -/
theorem oci_prepare_start_log_and_continue
    (registry : Nat → Option (Layer → Option ImgInst × Bool))
    (layers : List Layer)
    (hne : (ociCollectLayers registry layers).1 ≠ []) :
    (ociInit registry layers).instances = (ociCollectLayers registry layers).1 ∧
    (ociInit registry layers).initOk = true ∧
    (ociInit registry layers).prepareLogged =
      (ociCollectLayers registry layers).1.filter (fun i => !i.prepareOK) ∧
    (ociInit registry layers).extraParams =
      ((ociCollectLayers registry layers).1.filter (fun i => i.prepareOK)).flatMap
        (fun i => i.extraParams) ∧
    (ociStartStep (ociInit registry layers).instances).1 =
      (ociCollectLayers registry layers).1 ∧
    (ociStartStep (ociInit registry layers).instances).2.2 = true := by
  have hprep : ∀ is : List ImgInst,
      ociPrepareStep is =
        ((is.filter (fun i => i.prepareOK)).flatMap (fun i => i.extraParams),
          is.filter (fun i => !i.prepareOK)) := by
    intro is
    induction is with
    | nil => rfl
    | cons i is ih =>
      by_cases h : i.prepareOK <;>
        simp [ociPrepareStep, ih, List.filter_cons, h]
  have hmt : ¬(ociCollectLayers registry layers).1.isEmpty := by
    simpa [List.isEmpty_iff] using hne
  unfold ociInit
  simp [hmt, hprep, ociStartStep]

/-- Witness for the amended C6: a single layer producing an instance
whose `Prepare` fails. -/
theorem oci_prepare_start_log_and_continue_witness :
    ((ociCollectLayers
        (fun mt => if mt = 0 then some (fun _ => (some ⟨1, false, true, []⟩, false)) else none)
        [Layer.mk 0 0]).1 ≠ []) ∧
    ((ociInit (fun mt => if mt = 0 then some (fun _ => (some ⟨1, false, true, []⟩, false)) else none)
        [Layer.mk 0 0]).prepareLogged = [⟨1, false, true, []⟩] ∧
      (ociInit (fun mt => if mt = 0 then some (fun _ => (some ⟨1, false, true, []⟩, false)) else none)
        [Layer.mk 0 0]).extraParams = []) := by
  have h := oci_prepare_start_log_and_continue
    (fun mt => if mt = 0 then some (fun _ => (some ⟨1, false, true, []⟩, false)) else none)
    [Layer.mk 0 0] (by decide)
  exact ⟨by decide, by rw [h.2.2.1]; rfl, by rw [h.2.2.2.1]; rfl⟩

/-- Logger levels (logrus numbering: Panic = 0, Fatal = 1, Error = 2,
Warn = 3, Info = 4, Debug = 5, Trace = 6). -/
inductive LogLevel where
  | panicLvl
  | fatalLvl
  | errorLvl
  | warnLvl
  | infoLvl
  | debugLvl
  | traceLvl
deriving DecidableEq, Repr

/-- The level numbering of the wasm ABI as the spec words it
("Panic..Trace = 0..6") and as the guest-side import
`xlog(level uint32, str uint64)` passes it. -/
def levelOfNat : Nat → Option LogLevel
  | 0 => some .panicLvl
  | 1 => some .fatalLvl
  | 2 => some .errorLvl
  | 3 => some .warnLvl
  | 4 => some .infoLvl
  | 5 => some .debugLvl
  | 6 => some .traceLvl
  | _ => none

/-- The `xlog` host function as registered in `wasmOperatorInstance.init`
(`part_001`, lines 169-178).  The registered function takes a single
`i64` parameter — the string reference; it has no level parameter (the
source carries a `TODO: implement log level`, and the guest-side import
declares two parameters).  A failed string read logs a warning and
produces no entry (`none`); otherwise the message is copied out of guest
memory and logged via `Logger().Info`, i.e. always at Info level. -/
def xlogHost (mem : GuestMem) (strRef : Nat) : Option (LogLevel × List Nat) :=
  match stringFromStack mem strRef with
  | none => none
  | some buf => some (.infoLvl, buf)

/-- C8 counterexample: a concrete in-memory message logged through the
host's `xlog` produces an Info-level entry, never the Warn-level entry
that the claim promises for a level-3 invocation — the registered host
function ignores (indeed never receives) the level. -/
theorem xlog_ignores_level :
    xlogHost ⟨2, fun j => 104 + j⟩ (2 * U32) = some (.infoLvl, [104, 105]) ∧
    levelOfNat 3 = some .warnLvl ∧
    (xlogHost ⟨2, fun j => 104 + j⟩ (2 * U32)).map Prod.fst ≠ some .warnLvl := by
  refine ⟨by decide, rfl, by decide⟩

/-- C8 (amended): for every xlog invocation whose string reference lies
in guest memory, the host copies the message out of guest memory before
returning — the logged bytes are exactly the `len` bytes at `ptr` — and
logs it at Info level regardless of the level the guest passed (the
registered host function takes only the string reference); a reference
that fails to read produces a warning and no log entry. -/
theorem xlog_copies_and_logs_info (mem : GuestMem) (ptr len : Nat)
    (hp : ptr < U32) (hl : len < U32) (hm : ptr + len ≤ mem.size) :
    xlogHost mem (len * U32 + ptr) =
      some (.infoLvl, (List.range len).map fun j => mem.data (ptr + j)) ∧
    (∀ r, stringFromStack mem r = none → xlogHost mem r = none) := by
  constructor
  · have hmod : (len * U32 + ptr) % U32 = ptr := by
      rw [Nat.add_comm, Nat.add_mul_mod_self_right]
      exact Nat.mod_eq_of_lt hp
    have hdiv : (len * U32 + ptr) / U32 % U32 = len := by
      rw [Nat.add_comm, Nat.add_mul_div_right _ _ (by norm_num [U32])]
      rw [Nat.div_eq_of_lt hp]
      simpa using Nat.mod_eq_of_lt hl
    simp [xlogHost, stringFromStack, hmod, hdiv, hm]
  · intro r hr
    simp [xlogHost, hr]

/-- Witness for the amended C8 on a two-byte memory. -/
theorem xlog_copies_and_logs_info_witness :
    ((0 : Nat) < U32 ∧ (2 : Nat) < U32 ∧
      (0 : Nat) + 2 ≤ (GuestMem.mk 2 (fun j => 104 + j)).size) ∧
    xlogHost ⟨2, fun j => 104 + j⟩ (2 * U32 + 0) =
      some (.infoLvl, (List.range 2).map fun j =>
        (GuestMem.mk 2 (fun j => 104 + j)).data (0 + j)) :=
  ⟨⟨by norm_num [U32], by norm_num [U32], by norm_num⟩,
    (xlog_copies_and_logs_info ⟨2, fun j => 104 + j⟩ 0 2
      (by norm_num [U32]) (by norm_num [U32]) (by norm_num)).1⟩

/-- The slice of `GadgetMetadata` that the validator's
implementation-count check inspects: the gadget name length and the sizes
of the four implementation maps (`len(m.Tracers)` and so on). -/
structure GadgetMeta where
  nameLen : Nat
  tracers : Nat
  snapshotters : Nat
  toppers : Nat
  profilers : Nat
deriving DecidableEq, Repr

/-- `GadgetMetadata.countDistImp` (`metadata.go`, lines 207-222): starts
at `0` and increments once for each of the four maps that is non-empty,
in source order tracers, snapshotters, toppers, profilers. -/
def countDistImp (m : GadgetMeta) : Nat :=
  let c1 := if m.tracers > 0 then 0 + 1 else 0
  let c2 := if m.snapshotters > 0 then c1 + 1 else c1
  let c3 := if m.toppers > 0 then c2 + 1 else c2
  if m.profilers > 0 then c3 + 1 else c3

/-- The errors `GadgetMetadata.Validate` accumulates: the missing-name
error, the more-than-one-implementation error (carrying the count the Go
error message reports), and the errors of the seven sub-validators, which
depend on the eBPF collection spec and are kept opaque. -/
inductive MetaErr where
  | nameRequired
  | multiImpl (n : Nat)
  | subValidator (tag idx : Nat)
deriving DecidableEq, Repr

/-- `GadgetMetadata.Validate` (`metadata.go`, lines 224-268), as the
multierror list it accumulates: the name check, then the implementation
count check (`if count := m.countDistImp(); count > 1`), then the seven
sub-validators (`validateEbpfParams`, `validateTracers`,
`validateToppers`, `validateSnapshotters`, `validateProfilers`,
`validateStructs`, `validateGadgetParams`), abstracted as a list of
opaque sub-validator errors since they consume the eBPF spec. -/
def gadgetValidate (m : GadgetMeta) (subErrs : List (Nat × Nat)) : List MetaErr :=
  (if m.nameLen = 0 then [MetaErr.nameRequired] else []) ++
  (if countDistImp m > 1 then [MetaErr.multiImpl (countDistImp m)] else []) ++
  subErrs.map fun p => MetaErr.subValidator p.1 p.2

/-- The number of non-empty implementation families, stated the way the
spec words it: how many of the four families {tracers, snapshotters,
toppers, profilers} are present. -/
def familiesPresent (m : GadgetMeta) : Nat :=
  [m.tracers, m.snapshotters, m.toppers, m.profilers].countP fun n => decide (0 < n)

/-- C9: `Validate` reports the multiple-implementation error exactly when
more than one of the four families {tracers, snapshotters, toppers,
profilers} is non-empty — never when at most one is present — whatever
the sub-validators report; and the count it is based on agrees with the
number of non-empty families. -/
theorem validate_single_implementation (m : GadgetMeta) (subErrs : List (Nat × Nat)) :
    ((∃ n, MetaErr.multiImpl n ∈ gadgetValidate m subErrs) ↔ 2 ≤ familiesPresent m) ∧
    countDistImp m = familiesPresent m := by
  have hcnt : countDistImp m = familiesPresent m := by
    simp only [countDistImp, familiesPresent, List.countP_cons, List.countP_nil]
    by_cases h1 : 0 < m.tracers <;> by_cases h2 : 0 < m.snapshotters <;>
      by_cases h3 : 0 < m.toppers <;> by_cases h4 : 0 < m.profilers <;>
      simp [h1, h2, h3, h4]
  refine ⟨?_, hcnt⟩
  constructor
  · rintro ⟨n, hn⟩
    simp only [gadgetValidate, List.mem_append, List.mem_map] at hn
    rcases hn with (hn | hn) | hn
    · by_cases h : m.nameLen = 0 <;> simp [h] at hn
    · by_cases h : countDistImp m > 1
      · omega
      · simp [h] at hn
    · obtain ⟨p, _, hp⟩ := hn
      exact absurd hp (by simp)
  · intro h2
    refine ⟨countDistImp m, ?_⟩
    have : countDistImp m > 1 := by omega
    simp [gadgetValidate, this]

end InspektorGadget
